import Mathlib

/-!
Shallow embedding of the scoring arithmetic of the ConsVision watershed
model scripts.  Python floats are modelled by `ℚ`; a nullable field value
by `Option ℚ`; a Python expression that can raise by `Except PyErr _`.
Rasters are applied cell-wise, so each raster formula is embedded as the
scalar function applied to one cell value.
-/

set_option autoImplicit false

namespace WatershedModel

/-- Exceptions the embedded Python fragments can raise. -/
inductive PyErr where
  | typeError
  | zeroDivisionError
  deriving DecidableEq, Repr

/-! ### Linear truncated scorer — GetIntegLinearTrunc.py, lines 66-79 -/

/-- Line 66 of GetIntegLinearTrunc.py: `Slope = (100 - Y)/(X2 - X1)`. -/
def linSlope (Y X1 X2 : ℚ) : ℚ := (100 - Y) / (X2 - X1)

/-- Line 68 of GetIntegLinearTrunc.py: `Intercept = 100 - Slope*X2`. -/
def linIntercept (Y X1 X2 : ℚ) : ℚ := 100 - linSlope Y X1 X2 * X2

/-- Line 72, at one cell: `Rast = Slope * Raster(in_Integ) + Intercept`. -/
def linRast (Y X1 X2 v : ℚ) : ℚ := linSlope Y X1 X2 * v + linIntercept Y X1 X2

/-- Line 79 of GetIntegLinearTrunc.py, at one cell with value `v`:
`outRast = Con((Integ <= X1),50, Con((Integ >= X2),100, Rast))`. -/
def linTruncScore (Y X1 X2 v : ℚ) : ℚ :=
  if v ≤ X1 then 50 else if v ≥ X2 then 100 else linRast Y X1 X2 v

/-! ### Hump-shaped scorer — GetIntegMultHumpLinear.py, lines 70-91 -/

/-- Line 70 of GetIntegMultHumpLinear.py: `Slope1 = (100 - Y)/(X2 - X1)`. -/
def humpSlope1 (Y X1 X2 : ℚ) : ℚ := (100 - Y) / (X2 - X1)

/-- Line 72: `Int1 = 100 - Slope1*X2`. -/
def humpInt1 (Y X1 X2 : ℚ) : ℚ := 100 - humpSlope1 Y X1 X2 * X2

/-- Line 74: `Slope2 = (100 - Y)/(X3 - X4)`. -/
def humpSlope2 (Y X3 X4 : ℚ) : ℚ := (100 - Y) / (X3 - X4)

/-- Line 76: `Int2 = 100 - Slope2*X3`. -/
def humpInt2 (Y X3 X4 : ℚ) : ℚ := 100 - humpSlope2 Y X3 X4 * X3

/-- Line 80, at one cell: `Rast1 = Slope1 * Raster(in_Integ) + Int1`. -/
def humpRast1 (Y X1 X2 v : ℚ) : ℚ := humpSlope1 Y X1 X2 * v + humpInt1 Y X1 X2

/-- Line 84, at one cell: `Rast2 = Slope2 * Raster(in_Integ) + Int2`. -/
def humpRast2 (Y X3 X4 v : ℚ) : ℚ := humpSlope2 Y X3 X4 * v + humpInt2 Y X3 X4

/-- Line 91 of GetIntegMultHumpLinear.py, at one cell with value `v`:
`outRast = Con((Integ <= X1) | (Integ >= X4),50,
Con((Integ >= X2)&(Integ <= X3),100,Con(Integ < X2,Rast1, Rast2)))`. -/
def humpScore (Y X1 X2 X3 X4 v : ℚ) : ℚ :=
  if v ≤ X1 ∨ v ≥ X4 then 50
  else if X2 ≤ v ∧ v ≤ X3 then 100
  else if v < X2 then humpRast1 Y X1 X2 v else humpRast2 Y X3 X4 v

/-! ### Range scorer, positive polarity — KfactToScores.py lines 51-58
(the same codeblock, modulo the field name, appears in mibiToScores.py
lines 51-58).  The Python body first evaluates `float(kF)`, which raises
`TypeError` on a null field value; the interpolation divides by
`maxThresh - minThresh`, which raises `ZeroDivisionError` when that
difference is zero. -/

def kfactOutScore (kF : Option ℚ) (minThresh maxThresh : ℚ) : Except PyErr ℚ :=
  match kF with
  | none => .error .typeError
  | some v =>
    if v < minThresh then .ok 0
    else if v > maxThresh then .ok 100
    else if maxThresh - minThresh = 0 then .error .zeroDivisionError
    else .ok (100 * (v - minThresh) / (maxThresh - minThresh))

/-! ### Range scorer, negative polarity — RescalePollutantsToScores.py
lines 59-68.  A null coefficient is mapped to a null score before any
comparison; the interpolation divides by `maxThresh - minThresh`. -/

def rescaleOutScore (coeff : Option ℚ) (minThresh maxThresh : ℚ) :
    Except PyErr (Option ℚ) :=
  match coeff with
  | none => .ok none
  | some v =>
    if v < minThresh then .ok (some 100)
    else if v > maxThresh then .ok (some 0)
    else if maxThresh - minThresh = 0 then .error .zeroDivisionError
    else .ok (some (100 * (maxThresh - v) / (maxThresh - minThresh)))

/-! ### Data-driven thresholds — RescalePollutantsToScores.py lines 49-54:
`vals = [row.getValue(fld) ...]`, `vals = filter(lambda a: a != None, vals)`,
`cMin = min(vals)`, `cMax = max(vals)`. -/

/-- The non-null values of a column, in order (the Python `filter`). -/
def nonNullVals (col : List (Option ℚ)) : List ℚ := col.filterMap id

/-- Python's `min` over a list (raises on an empty list, hence `Option`). -/
def pyMin : List ℚ → Option ℚ
  | [] => none
  | x :: xs => some (xs.foldl min x)

/-- Python's `max` over a list (raises on an empty list, hence `Option`). -/
def pyMax : List ℚ → Option ℚ
  | [] => none
  | x :: xs => some (xs.foldl max x)

/-! ### Per-feature aggregation loop — GetSurfaceWaterScore.py lines 115-201.

A raster is modelled as a list of cell values.  Each cursor row carries
the source id (`myID`, `none` when `int(myID)` would raise), the served
population (`myPop`) and the per-record distance-score raster that the
external geoprocessing calls would produce (`tmpScore`, lines 137-162).
Those external calls can raise at any step of the record's body; the
record's `failAt` field records the outcome of its external calls:
`ok` (no exception), `early` (an exception before the running-max update
of lines 167-172, e.g. a malformed geometry in lines 137-162), or
`mid` (an exception after the running-max update but before the
running-sum update of lines 174-180 completes, e.g. a null `myPop` at
line 176). -/

/-- A raster, one rational per cell. -/
abbrev Grid := List ℚ

/-- Line 169: `CellStatistics ([tmpScore, RunningMax], "MAXIMUM", "DATA")`. -/
def cellMax (a b : Grid) : Grid := List.zipWith max a b

/-- Line 177: `CellStatistics ([tmpScore, RunningSum], "SUM", "DATA")`. -/
def cellSum (a b : Grid) : Grid := List.zipWith (fun x y => x + y) a b

/-- Where, if anywhere, the external calls of one record's body raise. -/
inductive FailStage where
  | ok
  | early
  | mid
  deriving DecidableEq, Repr

/-- One cursor row of the surface-water point loop. -/
structure SWRecord where
  myID : Option Int
  myPop : ℚ
  tmpScore : Grid
  failAt : FailStage
  deriving DecidableEq, Repr

/-- The loop state: the two accumulator rasters (lines 110-111, 172, 180)
and the failure list `myFailList` (lines 70, 188). -/
structure SWState where
  runningMax : Grid
  runningSum : Grid
  failList : List Int
  deriving DecidableEq, Repr

/-- The body of `for myPt in myPoints` (lines 117-201).  The body first
evaluates `str(int(myID))` (line 125); on a non-convertible id this
raises, and the `except` handler (lines 185-188) re-evaluates
`str(int(myID))` before appending to `myFailList`, so the second raise
escapes the per-record handler and propagates to the outer handler.
On a convertible id, an `early` failure reaches the handler with both
accumulators untouched, while a `mid` failure reaches it after
`RunningMax` was already rebound to the updated raster (line 172). -/
def processPoint (st : SWState) (r : SWRecord) : Except PyErr SWState :=
  match r.myID with
  | none => .error .typeError
  | some n =>
    match r.failAt with
    | .ok =>
      .ok ⟨cellMax r.tmpScore st.runningMax,
           cellSum (r.tmpScore.map (fun s => s / 100 * r.myPop)) st.runningSum,
           st.failList⟩
    | .early => .ok ⟨st.runningMax, st.runningSum, st.failList ++ [n]⟩
    | .mid =>
      .ok ⟨cellMax r.tmpScore st.runningMax, st.runningSum, st.failList ++ [n]⟩

/-- The whole point loop: an error propagating out of the per-record
handler aborts the remaining records (the outer `except` at line 253
only logs). -/
def processBatch (st : SWState) : List SWRecord → Except PyErr SWState
  | [] => .ok st
  | r :: rs =>
    match processPoint st r with
    | .error e => .error e
    | .ok st' => processBatch st' rs

/-! ### Final-output fallback — GetSurfaceWaterScore.py lines 230-236.

`FinScore = CellStatistics (...)` is computed (line 230) and saved to the
requested path (line 232); if that save raises, the fallback branch
(line 236) executes `RFinScore.save(out_swScore)`.  Python resolves the
name `RFinScore` at that point; the script never assigns it, so the
lookup raises `NameError`, which escapes to the outer handler and no
final raster is written anywhere. -/

/-- Every name the script assigns, in source order (GetSurfaceWaterScore.py). -/
def swAssignedNames : List String :=
  ["tbx1", "tbx2", "outScratchKeep", "outScratch", "in_SrcPts", "in_SrcZone",
   "fld_SrcID", "fld_PopEst", "in_Snap", "out_swScore", "myFailList", "drive",
   "path", "filename", "myWorkspace", "myFolder", "out_fname", "ts",
   "myFailLog", "zeroRast", "maxRast", "sumRast", "swMax", "swMaxScore",
   "swSum", "swSumScore", "where_clause", "swPts", "snapRast", "zeros",
   "RunningMax", "RunningSum", "myPoints", "myPt", "myID", "myPop", "tmpPt",
   "tmpPtBuff", "tmpPoly", "tmpPtRaster", "tmpEucDist", "tmpScore", "tmpMax",
   "tmpSum", "eucDist", "updateMaxScore", "updateSumScore", "FinScore", "tb",
   "tbinfo", "pymsg", "msgs", "csvfile", "myCSV", "value"]

/-- Outcome of the final `FinScore` save block (lines 230-236). -/
inductive FinSave where
  | saved (path : String)
  | abortedNameError
  deriving DecidableEq, Repr

/-- Lines 231-236: try saving to the requested path; on failure run the
fallback, whose target object is the name `RFinScore` — defined only if
the script assigned it. -/
def saveFinScore (primarySaveOk : Bool) : FinSave :=
  if primarySaveOk then .saved "out_swScore"
  else if "RFinScore" ∈ swAssignedNames then .saved "scratch_out_swScore"
  else .abortedNameError

/-! ## Helper lemmas -/

/-- On the open interval between the inflection points, the truncated
scorer returns the interpolated raster value. -/
lemma linTruncScore_interp (Y X1 X2 v : ℚ) (h1 : X1 < v) (h2 : v < X2) :
    linTruncScore Y X1 X2 v = linRast Y X1 X2 v := by
  unfold linTruncScore
  rw [if_neg (not_le.mpr h1), if_neg (not_le.mpr h2)]

/-- At a cell whose value lies in the closed window, the positive-polarity
scorer returns the interpolation. -/
lemma kfactOutScore_interp (mn mx v : ℚ) (h : mn < mx) (h1 : mn ≤ v)
    (h2 : v ≤ mx) :
    kfactOutScore (some v) mn mx = .ok (100 * (v - mn) / (mx - mn)) := by
  have hne : mx - mn ≠ 0 := sub_ne_zero.mpr (ne_of_gt h)
  simp only [kfactOutScore]
  rw [if_neg (not_lt.mpr h1), if_neg (not_lt.mpr h2), if_neg hne]

/-- At a value inside the closed window, the negative-polarity scorer
returns the interpolation. -/
lemma rescaleOutScore_interp (mn mx v : ℚ) (h : mn < mx) (h1 : mn ≤ v)
    (h2 : v ≤ mx) :
    rescaleOutScore (some v) mn mx = .ok (some (100 * (mx - v) / (mx - mn))) := by
  have hne : mx - mn ≠ 0 := sub_ne_zero.mpr (ne_of_gt h)
  simp only [rescaleOutScore]
  rw [if_neg (not_lt.mpr h1), if_neg (not_lt.mpr h2), if_neg hne]

lemma foldl_min_le_init (xs : List ℚ) (a : ℚ) : xs.foldl min a ≤ a := by
  induction xs generalizing a with
  | nil => exact le_refl a
  | cons x xs ih => exact le_trans (ih (min a x)) (min_le_left a x)

lemma foldl_min_le (xs : List ℚ) (a : ℚ) : ∀ v ∈ xs, xs.foldl min a ≤ v := by
  induction xs generalizing a with
  | nil => intro v hv; cases hv
  | cons x xs ih =>
    intro v hv
    rcases List.mem_cons.mp hv with h | h
    · subst h
      exact le_trans (foldl_min_le_init xs (min a v)) (min_le_right a v)
    · exact ih (min a x) v h

lemma init_le_foldl_max (xs : List ℚ) (a : ℚ) : a ≤ xs.foldl max a := by
  induction xs generalizing a with
  | nil => exact le_refl a
  | cons x xs ih => exact le_trans (le_max_left a x) (ih (max a x))

lemma le_foldl_max (xs : List ℚ) (a : ℚ) : ∀ v ∈ xs, v ≤ xs.foldl max a := by
  induction xs generalizing a with
  | nil => intro v hv; cases hv
  | cons x xs ih =>
    intro v hv
    rcases List.mem_cons.mp hv with h | h
    · subst h
      exact le_trans (le_max_right a v) (init_le_foldl_max xs (max a v))
    · exact ih (max a x) v h

/-- Python's `min` bounds every member of the list from below. -/
lemma pyMin_le (l : List ℚ) (m : ℚ) (hm : pyMin l = some m) :
    ∀ v ∈ l, m ≤ v := by
  cases l with
  | nil => simp [pyMin] at hm
  | cons x xs =>
    simp only [pyMin, Option.some.injEq] at hm
    subst hm
    intro v hv
    rcases List.mem_cons.mp hv with h | h
    · subst h; exact foldl_min_le_init xs v
    · exact foldl_min_le xs x v h

/-- Python's `max` bounds every member of the list from above. -/
lemma pyMax_ge (l : List ℚ) (M : ℚ) (hM : pyMax l = some M) :
    ∀ v ∈ l, v ≤ M := by
  cases l with
  | nil => simp [pyMax] at hM
  | cons x xs =>
    simp only [pyMax, Option.some.injEq] at hM
    subst hM
    intro v hv
    rcases List.mem_cons.mp hv with h | h
    · subst h; exact init_le_foldl_max xs v
    · exact le_foldl_max xs x v h

/-- A linear function is close to its value at a point whenever the
argument is close enough to the point. -/
lemma abs_linear_lt (s c t L ε : ℚ) (hL : s * t + c = L) (hε : 0 < ε) :
    ∃ δ : ℚ, 0 < δ ∧ ∀ v : ℚ, |v - t| < δ → |s * v + c - L| < ε := by
  have hs : (0 : ℚ) ≤ |s| := abs_nonneg s
  have hs1 : (0 : ℚ) < |s| + 1 := by linarith
  refine ⟨ε / (|s| + 1), div_pos hε hs1, fun v hv => ?_⟩
  have h1 : s * v + c - L = s * (v - t) := by rw [← hL]; ring
  rw [h1, abs_mul]
  have h2 : |s| * |v - t| ≤ |s| * (ε / (|s| + 1)) :=
    mul_le_mul_of_nonneg_left (le_of_lt hv) hs
  have h3 : |s| * (ε / (|s| + 1)) < ε := by
    rw [mul_div_assoc', div_lt_iff₀ hs1]
    nlinarith
  exact lt_of_le_of_lt h2 h3

/-! ## Claims -/

/-- C1, counterexample to the claim as stated: the claim quantifies over
all inputs with `X2 ≠ X1` and asserts `score(value) = 100` for every
`value ≥ X2`; with `Y = 20`, `X1 = 50`, `X2 = 10` the value `30 ≥ X2`
scores 50, because the `value ≤ X1` clamp branch of line 79 is tested
first. -/
theorem c1_counterexample :
    (10 : ℚ) ≠ 50 ∧ (30 : ℚ) ≥ 10 ∧ linTruncScore 20 50 10 30 ≠ 100 := by
  norm_num [linTruncScore]

/-- C1 (amended: the thresholds must satisfy `X1 < X2`, not merely
`X2 ≠ X1`): the linear truncated scorer returns 50 for every
`value ≤ X1` regardless of `Y`, 100 for every `value ≥ X2`, and
`Slope*value + Intercept` strictly between; for `Y=20, X1=10, X2=50` it
gives `score(5)=50`, `score(30)=60`, `score(60)=100`. -/
theorem c1_linear_trunc_scorer (Y X1 X2 v : ℚ) (h : X1 < X2) :
    (v ≤ X1 → linTruncScore Y X1 X2 v = 50) ∧
    (v ≥ X2 → linTruncScore Y X1 X2 v = 100) ∧
    (X1 < v → v < X2 →
      linTruncScore Y X1 X2 v = linSlope Y X1 X2 * v + linIntercept Y X1 X2) ∧
    linTruncScore 20 10 50 5 = 50 ∧ linTruncScore 20 10 50 30 = 60 ∧
    linTruncScore 20 10 50 60 = 100 := by
  refine ⟨?_, ?_, ?_, ?_, ?_, ?_⟩
  · intro hv; unfold linTruncScore; rw [if_pos hv]
  · intro hv
    unfold linTruncScore
    rw [if_neg (not_le.mpr (lt_of_lt_of_le h hv)), if_pos hv]
  · intro h1 h2
    rw [linTruncScore_interp Y X1 X2 v h1 h2, linRast]
  · norm_num [linTruncScore]
  · norm_num [linTruncScore, linRast, linSlope, linIntercept]
  · norm_num [linTruncScore]

/-- C1, witness: the amended theorem applied at the spec's concrete
scenario `Y=20, X1=10, X2=50, value=30`. -/
theorem c1_witness : linTruncScore 20 10 50 30 = 60 :=
  (c1_linear_trunc_scorer 20 10 50 30 (by norm_num)).2.2.2.2.1

/-- C2: for `X1 < X2 ≤ X3 < X4` the hump-shaped scorer returns 50 at
`X1`, at `X4` and outside `(X1, X4)`, 100 on the plateau `[X2, X3]`,
`Slope1*value + Int1` on `(X1, X2)` and `Slope2*value + Int2` on
`(X3, X4)`. -/
theorem c2_hump_scorer (Y X1 X2 X3 X4 v : ℚ)
    (h12 : X1 < X2) (h23 : X2 ≤ X3) (h34 : X3 < X4) :
    humpScore Y X1 X2 X3 X4 X1 = 50 ∧
    humpScore Y X1 X2 X3 X4 X4 = 50 ∧
    (v ≤ X1 ∨ v ≥ X4 → humpScore Y X1 X2 X3 X4 v = 50) ∧
    (X2 ≤ v → v ≤ X3 → humpScore Y X1 X2 X3 X4 v = 100) ∧
    (X1 < v → v < X2 →
      humpScore Y X1 X2 X3 X4 v = humpSlope1 Y X1 X2 * v + humpInt1 Y X1 X2) ∧
    (X3 < v → v < X4 →
      humpScore Y X1 X2 X3 X4 v = humpSlope2 Y X3 X4 * v + humpInt2 Y X3 X4) := by
  refine ⟨?_, ?_, ?_, ?_, ?_, ?_⟩
  · unfold humpScore; rw [if_pos (Or.inl le_rfl)]
  · unfold humpScore; rw [if_pos (Or.inr le_rfl)]
  · intro hv; unfold humpScore; rw [if_pos hv]
  · intro h2v hv3
    have hA : ¬ (v ≤ X1 ∨ v ≥ X4) := by
      push_neg
      exact ⟨lt_of_lt_of_le h12 h2v, lt_of_le_of_lt hv3 h34⟩
    unfold humpScore
    rw [if_neg hA, if_pos ⟨h2v, hv3⟩]
  · intro h1 h2
    have hA : ¬ (v ≤ X1 ∨ v ≥ X4) := by
      push_neg
      exact ⟨h1, lt_trans (lt_of_lt_of_le h2 h23) h34⟩
    have hB : ¬ (X2 ≤ v ∧ v ≤ X3) := fun hc => absurd hc.1 (not_le.mpr h2)
    unfold humpScore
    rw [if_neg hA, if_neg hB, if_pos h2, humpRast1]
  · intro h3 h4
    have hA : ¬ (v ≤ X1 ∨ v ≥ X4) := by
      push_neg
      exact ⟨lt_of_lt_of_le (lt_of_lt_of_le h12 h23) (le_of_lt h3), h4⟩
    have hB : ¬ (X2 ≤ v ∧ v ≤ X3) := fun hc => absurd hc.2 (not_le.mpr h3)
    have hC : ¬ v < X2 := not_lt.mpr (le_trans h23 (le_of_lt h3))
    unfold humpScore
    rw [if_neg hA, if_neg hB, if_neg hC, humpRast2]

/-- C2, witness: the theorem applied at `Y=20, X1=10, X2=20, X3=30,
X4=50, value=25`, a plateau cell. -/
theorem c2_witness : humpScore 20 10 20 30 50 25 = 100 :=
  (c2_hump_scorer 20 10 20 30 50 25 (by norm_num) (by norm_num)
    (by norm_num)).2.2.2.1 (by norm_num) (by norm_num)

/-- C3: with `min < max`, the positive-polarity range scorer maps `min`
to 0 and `max` to 100 and is monotonically non-decreasing on
`[min, max]`; the negative-polarity scorer maps `min` to 100 and `max`
to 0 and is monotonically non-increasing on `[min, max]`. -/
theorem c3_range_scorer_endpoints_monotone (mn mx : ℚ) (h : mn < mx) :
    kfactOutScore (some mn) mn mx = .ok 0 ∧
    kfactOutScore (some mx) mn mx = .ok 100 ∧
    (∀ a b : ℚ, mn ≤ a → a ≤ b → b ≤ mx →
      ∃ sa sb : ℚ, kfactOutScore (some a) mn mx = .ok sa ∧
        kfactOutScore (some b) mn mx = .ok sb ∧ sa ≤ sb) ∧
    rescaleOutScore (some mn) mn mx = .ok (some 100) ∧
    rescaleOutScore (some mx) mn mx = .ok (some 0) ∧
    (∀ a b : ℚ, mn ≤ a → a ≤ b → b ≤ mx →
      ∃ sa sb : ℚ, rescaleOutScore (some a) mn mx = .ok (some sa) ∧
        rescaleOutScore (some b) mn mx = .ok (some sb) ∧ sb ≤ sa) := by
  have hd : (0 : ℚ) < mx - mn := sub_pos.mpr h
  have hne : mx - mn ≠ 0 := ne_of_gt hd
  refine ⟨?_, ?_, ?_, ?_, ?_, ?_⟩
  · rw [kfactOutScore_interp mn mx mn h le_rfl (le_of_lt h)]
    norm_num
  · rw [kfactOutScore_interp mn mx mx h (le_of_lt h) le_rfl]
    rw [mul_div_assoc, div_self hne, mul_one]
  · intro a b ha hab hb
    refine ⟨100 * (a - mn) / (mx - mn), 100 * (b - mn) / (mx - mn),
      kfactOutScore_interp mn mx a h ha (le_trans hab hb),
      kfactOutScore_interp mn mx b h (le_trans ha hab) hb, ?_⟩
    rw [div_le_div_iff_of_pos_right hd]
    linarith
  · rw [rescaleOutScore_interp mn mx mn h le_rfl (le_of_lt h)]
    rw [mul_div_assoc, div_self hne, mul_one]
  · rw [rescaleOutScore_interp mn mx mx h (le_of_lt h) le_rfl]
    norm_num
  · intro a b ha hab hb
    refine ⟨100 * (mx - a) / (mx - mn), 100 * (mx - b) / (mx - mn),
      rescaleOutScore_interp mn mx a h ha (le_trans hab hb),
      rescaleOutScore_interp mn mx b h (le_trans ha hab) hb, ?_⟩
    rw [div_le_div_iff_of_pos_right hd]
    linarith

/-- C3, witness: the theorem applied at `min = 0`, `max = 2`. -/
theorem c3_witness : kfactOutScore (some (0 : ℚ)) 0 2 = .ok 0 :=
  (c3_range_scorer_endpoints_monotone 0 2 (by norm_num)).1

/-- C5, counterexample to the claim as stated: the claim asserts that
every call with `min == max` raises; with `min = max = 0` the value 1
takes the `value > maxThresh` clamp branch before the division is
reached and both scorers return silently. -/
theorem c5_counterexample :
    kfactOutScore (some 1) 0 0 = .ok 100 ∧
    rescaleOutScore (some 1) 0 0 = .ok (some 0) := ⟨rfl, rfl⟩

/-- C5 (amended): with `min == max` there is no explicit guard; the
division by `maxThresh - minThresh` raises Python's built-in
`ZeroDivisionError` exactly when the value equals the common threshold
(so that neither clamp branch applies); a value strictly below returns
the low clamp and a value strictly above returns the high clamp, without
raising. -/
theorem c5_degenerate_thresholds (m v : ℚ) :
    (v = m → kfactOutScore (some v) m m = .error .zeroDivisionError ∧
      rescaleOutScore (some v) m m = .error .zeroDivisionError) ∧
    (v < m → kfactOutScore (some v) m m = .ok 0 ∧
      rescaleOutScore (some v) m m = .ok (some 100)) ∧
    (m < v → kfactOutScore (some v) m m = .ok 100 ∧
      rescaleOutScore (some v) m m = .ok (some 0)) := by
  refine ⟨?_, ?_, ?_⟩
  · rintro rfl
    constructor
    · simp only [kfactOutScore]
      rw [if_neg (lt_irrefl v), if_neg (lt_irrefl v), if_pos (sub_self v)]
    · simp only [rescaleOutScore]
      rw [if_neg (lt_irrefl v), if_neg (lt_irrefl v), if_pos (sub_self v)]
  · intro hv
    constructor
    · simp only [kfactOutScore]; rw [if_pos hv]
    · simp only [rescaleOutScore]; rw [if_pos hv]
  · intro hv
    constructor
    · simp only [kfactOutScore]; rw [if_neg (not_lt.mpr (le_of_lt hv)), if_pos hv]
    · simp only [rescaleOutScore]; rw [if_neg (not_lt.mpr (le_of_lt hv)), if_pos hv]

/-- C5, witness: the amended theorem applied at `m = 1`, `v = 1`. -/
theorem c5_witness :
    kfactOutScore (some (1 : ℚ)) 1 1 = .error .zeroDivisionError ∧
    rescaleOutScore (some (1 : ℚ)) 1 1 = .error .zeroDivisionError :=
  (c5_degenerate_thresholds 1 1).1 rfl

/-- C6, counterexample to the claim as stated: the claim covers both
polarities, but the positive-polarity scorer (with its calibrated
thresholds `cMin = 0`, `cMax = 0.55`) evaluates `float(kF)` on a null
input and raises `TypeError` instead of returning null. -/
theorem c6_counterexample :
    kfactOutScore none 0 (11 / 20) = .error .typeError := rfl

/-- C6 (amended): for every threshold setting, the negative-polarity
range scorer maps a null input to a null output without raising, while
the positive-polarity scorer raises `TypeError` on a null input. -/
theorem c6_null_propagation (mn mx : ℚ) :
    rescaleOutScore none mn mx = .ok none ∧
    kfactOutScore none mn mx = .error .typeError := ⟨rfl, rfl⟩

/-- C7: for `X1 < X2` the interpolated branch satisfies
`Slope*X2 + Intercept = 100` exactly and `Slope*X1 + Intercept = Y`; the
scorer agrees with the interpolated branch on `(X1, X2)`, its limit from
below at `X2` is 100 and the limit of the interpolated branch from above
at `X1` is `Y`; at `X1` itself the scorer returns the fixed clamp 50, so
for `Y ≠ 50` the jump discontinuity at `X1` is present in the code. -/
theorem c7_boundary_behaviour (Y X1 X2 : ℚ) (h : X1 < X2) :
    linSlope Y X1 X2 * X2 + linIntercept Y X1 X2 = 100 ∧
    linSlope Y X1 X2 * X1 + linIntercept Y X1 X2 = Y ∧
    (∀ v, X1 < v → v < X2 →
      linTruncScore Y X1 X2 v = linSlope Y X1 X2 * v + linIntercept Y X1 X2) ∧
    (∀ ε : ℚ, 0 < ε → ∃ δ : ℚ, 0 < δ ∧ ∀ v, X2 - δ < v → v < X2 →
      |linTruncScore Y X1 X2 v - 100| < ε) ∧
    (∀ ε : ℚ, 0 < ε → ∃ δ : ℚ, 0 < δ ∧ ∀ v, X1 < v → v < X1 + δ →
      |linRast Y X1 X2 v - Y| < ε) ∧
    linTruncScore Y X1 X2 X1 = 50 ∧
    (Y ≠ 50 →
      linTruncScore Y X1 X2 X1 ≠ linSlope Y X1 X2 * X1 + linIntercept Y X1 X2) := by
  have hne : X2 - X1 ≠ 0 := sub_ne_zero.mpr (ne_of_gt h)
  have hat2 : linSlope Y X1 X2 * X2 + linIntercept Y X1 X2 = 100 := by
    rw [linIntercept]; ring
  have hat1 : linSlope Y X1 X2 * X1 + linIntercept Y X1 X2 = Y := by
    rw [linIntercept, linSlope]
    field_simp
    ring
  have hclamp : linTruncScore Y X1 X2 X1 = 50 := by
    unfold linTruncScore; rw [if_pos le_rfl]
  refine ⟨hat2, hat1, ?_, ?_, ?_, hclamp, ?_⟩
  · intro v h1 h2
    rw [linTruncScore_interp Y X1 X2 v h1 h2, linRast]
  · intro ε hε
    obtain ⟨δ0, hδ0, hd⟩ :=
      abs_linear_lt (linSlope Y X1 X2) (linIntercept Y X1 X2) X2 100 ε hat2 hε
    refine ⟨min δ0 (X2 - X1), lt_min hδ0 (sub_pos.mpr h), fun v hlo hhi => ?_⟩
    have hm1 := min_le_left δ0 (X2 - X1)
    have hm2 := min_le_right δ0 (X2 - X1)
    have h1 : X1 < v := by linarith
    rw [linTruncScore_interp Y X1 X2 v h1 hhi, linRast]
    apply hd
    rw [abs_of_neg (by linarith : v - X2 < 0)]
    linarith
  · intro ε hε
    obtain ⟨δ0, hδ0, hd⟩ :=
      abs_linear_lt (linSlope Y X1 X2) (linIntercept Y X1 X2) X1 Y ε hat1 hε
    refine ⟨δ0, hδ0, fun v hlo hhi => ?_⟩
    rw [linRast]
    apply hd
    rw [abs_of_pos (by linarith : 0 < v - X1)]
    linarith
  · intro hY hc
    rw [hclamp, hat1] at hc
    exact hY hc.symm

/-- C7, witness: the theorem applied at `Y = 20`, `X1 = 10`, `X2 = 50`. -/
theorem c7_witness : linSlope 20 10 50 * 50 + linIntercept 20 10 50 = 100 :=
  (c7_boundary_behaviour 20 10 50 (by norm_num)).1

/-- C8: when the thresholds are the observed minimum and maximum of the
non-null values of the scored column and they differ, every non-null
value of the column misses both clamp branches, is scored by the
interpolation `100*(maxThresh - value)/(maxThresh - minThresh)`, and the
score lies in `[0, 100]`. -/
theorem c8_data_driven_thresholds (col : List (Option ℚ)) (m M : ℚ)
    (hm : pyMin (nonNullVals col) = some m)
    (hM : pyMax (nonNullVals col) = some M) (hlt : m < M) :
    ∀ v ∈ nonNullVals col,
      ¬ v < m ∧ ¬ v > M ∧
      rescaleOutScore (some v) m M = .ok (some (100 * (M - v) / (M - m))) ∧
      0 ≤ 100 * (M - v) / (M - m) ∧ 100 * (M - v) / (M - m) ≤ 100 := by
  intro v hv
  have h1 : m ≤ v := pyMin_le (nonNullVals col) m hm v hv
  have h2 : v ≤ M := pyMax_ge (nonNullVals col) M hM v hv
  have hd : (0 : ℚ) < M - m := sub_pos.mpr hlt
  refine ⟨not_lt.mpr h1, not_lt.mpr h2,
    rescaleOutScore_interp m M v hlt h1 h2, ?_, ?_⟩
  · exact div_nonneg (mul_nonneg (by norm_num) (by linarith)) (le_of_lt hd)
  · rw [div_le_iff₀ hd]
    linarith

/-- C8, witness: the theorem applied to the column
`[some 1, none, some 3]`, whose non-null minimum and maximum are 1 and
3, at the member value 1. -/
theorem c8_witness :
    ¬ (1 : ℚ) < 1 ∧ ¬ (1 : ℚ) > 3 ∧
    rescaleOutScore (some 1) 1 3 = .ok (some (100 * (3 - 1) / (3 - 1))) ∧
    0 ≤ (100 : ℚ) * (3 - 1) / (3 - 1) ∧ (100 : ℚ) * (3 - 1) / (3 - 1) ≤ 100 :=
  c8_data_driven_thresholds [some 1, none, some 3] 1 3
    (by norm_num [pyMin, nonNullVals, List.filterMap_cons])
    (by norm_num [pyMax, nonNullVals, List.filterMap_cons])
    (by norm_num) 1 (by simp [nonNullVals])

/-- C4, counterexample to the claim as stated: a record (id 7) whose
external calls raise after the running-max update reaches the per-record
handler with `RunningMax` already rebound (line 172), so its failure
does not leave both accumulators unchanged: starting from zero
accumulators, the failed record leaves the failure list `[7]` yet the
running maximum becomes `[40] ≠ [0]`. -/
theorem c4_counterexample :
    processPoint ⟨[0], [0], []⟩ ⟨some 7, 2, [40], .mid⟩ =
      .ok ⟨[40], [0], [7]⟩ ∧ ([40] : Grid) ≠ [0] :=
  ⟨rfl, by norm_num⟩

/-- C4 (amended): when processing of a record whose identifier is
convertible to an integer raises an exception, the identifier is
appended to the failure list and the loop continues with the next record
(the batch is not aborted); the running-sum accumulator is left
unchanged by the failed record, while the running-maximum accumulator is
guaranteed unchanged only when the exception occurred before the
running-max update. -/
theorem c4_loop_failure_semantics (st : SWState) (r : SWRecord)
    (rs : List SWRecord) (n : Int) (hid : r.myID = some n)
    (hfail : r.failAt ≠ .ok) :
    ∃ st' : SWState, processPoint st r = .ok st' ∧
      st'.failList = st.failList ++ [n] ∧
      st'.runningSum = st.runningSum ∧
      (r.failAt = .early → st'.runningMax = st.runningMax) ∧
      processBatch st (r :: rs) = processBatch st' rs := by
  cases hfa : r.failAt with
  | ok => exact absurd hfa hfail
  | early =>
    refine ⟨⟨st.runningMax, st.runningSum, st.failList ++ [n]⟩, ?_, rfl, rfl,
      fun _ => rfl, ?_⟩
    · simp [processPoint, hid, hfa]
    · simp [processBatch, processPoint, hid, hfa]
  | mid =>
    refine ⟨⟨cellMax r.tmpScore st.runningMax, st.runningSum,
      st.failList ++ [n]⟩, ?_, rfl, rfl, fun hc => ?_, ?_⟩
    · simp [processPoint, hid, hfa]
    · cases hc
    · simp [processBatch, processPoint, hid, hfa]

/-- C4, witness: the amended theorem applied to a one-record batch whose
record (id 5) fails before the running-max update. -/
theorem c4_witness :
    ∃ st' : SWState,
      processPoint ⟨[0], [0], []⟩ ⟨some 5, 1, [10], .early⟩ = .ok st' ∧
      st'.failList = [] ++ [5] ∧
      st'.runningSum = [0] ∧
      (FailStage.early = FailStage.early → st'.runningMax = [0]) ∧
      processBatch ⟨[0], [0], []⟩ [⟨some 5, 1, [10], .early⟩] =
        processBatch st' [] :=
  c4_loop_failure_semantics ⟨[0], [0], []⟩ ⟨some 5, 1, [10], .early⟩ [] 5
    rfl (by simp)

/-- C9: the script assigns `FinScore` but never `RFinScore`; when saving
`FinScore` to the requested output path succeeds, the final raster is
written there, and when it fails, the fallback branch references the
unassigned name `RFinScore`, raises `NameError`, escapes to the outer
handler and no final output raster is produced at all. -/
theorem c9_final_output_fallback :
    "RFinScore" ∉ swAssignedNames ∧ "FinScore" ∈ swAssignedNames ∧
    saveFinScore true = .saved "out_swScore" ∧
    saveFinScore false = .abortedNameError :=
  ⟨by decide, by decide, rfl, rfl⟩

/-- C10: a record whose id field is not convertible to an integer makes
`str(int(myID))` raise inside the per-record handler itself, so the
record never reaches the failure-list append, the processing of the
record never succeeds, and the exception aborts the remaining batch. -/
theorem c10_nonconvertible_id_aborts (st : SWState) (r : SWRecord)
    (rs : List SWRecord) (hid : r.myID = none) :
    processPoint st r = .error .typeError ∧
    (∀ st' : SWState, processPoint st r ≠ .ok st') ∧
    processBatch st (r :: rs) = .error .typeError := by
  have h1 : processPoint st r = .error .typeError := by
    simp [processPoint, hid]
  refine ⟨h1, ?_, ?_⟩
  · intro st' hc
    rw [h1] at hc
    cases hc
  · simp [processBatch, h1]

/-- C10, witness: the theorem applied to a one-record batch whose record
has a null id. -/
theorem c10_witness :
    processPoint ⟨[0], [0], []⟩ ⟨none, 1, [10], .ok⟩ = .error .typeError ∧
    (∀ st' : SWState,
      processPoint ⟨[0], [0], []⟩ ⟨none, 1, [10], .ok⟩ ≠ .ok st') ∧
    processBatch ⟨[0], [0], []⟩ [⟨none, 1, [10], .ok⟩] = .error .typeError :=
  c10_nonconvertible_id_aborts ⟨[0], [0], []⟩ ⟨none, 1, [10], .ok⟩ [] rfl

end WatershedModel
